import Mathlib

/-!
Verification of the Phil Jackson triangle diagnostic pipeline
(src/extensions/soundchain/src/phil-jackson.ts).

The engine is embedded shallowly: the stage registry, the error
classifier, the start-stage selector, the prompt builder and the
pipeline executor are translated into executable Lean definitions.
The external model-invocation service (`client.ollamaGenerate`) is an
oracle of type `GenFun`; a call that throws is modelled by the oracle
returning `Except.error` carrying the string form of the thrown value.
Wall-clock reads (`Date.now()`) are modelled by an oracle
`clock : Nat → Int` indexed by the order of the calls.
-/

namespace PhilJackson

/-- Lower-case a string character by character (model of
`String.prototype.toLowerCase` for the ASCII keywords the classifier
uses). -/
def lowerStr (s : String) : String := String.mk (s.data.map Char.toLower)

/-- Does the character list start with the given needle? -/
def leadMatch : List Char → List Char → Bool
  | [], _ => true
  | _ :: _, [] => false
  | c :: cs, d :: ds => c == d && leadMatch cs ds

/-- Does the needle occur as a contiguous run anywhere in the list? -/
def subMatch (needle : List Char) : List Char → Bool
  | [] => needle.isEmpty
  | c :: cs => leadMatch needle (c :: cs) || subMatch needle cs

/-- Model of `hay.includes(needle)` on JavaScript strings. -/
def strIncludes (hay needle : String) : Bool := subMatch needle.data hay.data

/-- Concatenation of a list of strings, in order. -/
def concatAll : List String → String
  | [] => ""
  | s :: rest => s ++ concatAll rest

/-- Model of the JavaScript values the engine handles as `unknown`
responses: `null`, strings, and plain objects (ordered field lists). -/
inductive JSValue where
  | vnull : JSValue
  | vstr : String → JSValue
  | vobj : List (String × JSValue) → JSValue

instance : Inhabited JSValue := ⟨JSValue.vnull⟩

/-- JSON string escaping for one character. -/
def escChar (c : Char) : String :=
  if c = '\"' then "\\\""
  else if c = '\\' then "\\\\"
  else if c = '\n' then "\\n"
  else if c = '\t' then "\\t"
  else if c = '\r' then "\\r"
  else String.mk [c]

/-- JSON string escaping. -/
def jsonEscape (s : String) : String := concatAll (s.data.map escChar)

mutual

/-- Model of `JSON.stringify` on the modelled JavaScript values. -/
def jsonStringify : JSValue → String
  | JSValue.vnull => "null"
  | JSValue.vstr s => "\"" ++ jsonEscape s ++ "\""
  | JSValue.vobj fields =>
      "\x7b" ++ String.intercalate "," (jsonFields fields) ++ "\x7d"

/-- Rendered `"key":value` members of an object, in order. -/
def jsonFields : List (String × JSValue) → List String
  | [] => []
  | (k, v) :: rest =>
      ("\"" ++ jsonEscape k ++ "\":" ++ jsonStringify v) :: jsonFields rest

end

/-- Model of JavaScript `String(v)` on the modelled values. -/
def jsToString : JSValue → String
  | JSValue.vnull => "null"
  | JSValue.vstr s => s
  | JSValue.vobj _ => "[object Object]"

/-- Response-text extraction used by the executor and the prompt
builder: if the raw response is a non-null object with a `response`
field, take that field's string form, otherwise serialize the whole
value (`typeof response === "object" && response !== null &&
"response" in response ? String(response.response) :
JSON.stringify(response)`). -/
def extractResponseText (v : JSValue) : String :=
  match v with
  | JSValue.vobj fields =>
      match fields.find? (fun kv => kv.fst == "response") with
      | some kv => jsToString kv.snd
      | none => jsonStringify v
  | _ => jsonStringify v

/-- One stage descriptor of the pipeline (interface `PipelineStage`). -/
structure PipelineStage where
  name : String
  model : String
  role : String
  trigger : String
  tasks : List String
  output : String
  chemistry : String

/-- The fixed stage registry `PIPELINE_STAGES`. -/
def PIPELINE_STAGES : List PipelineStage := [
  { name := "syntax_correction",
    model := "falcon:7b",
    role := "Syntax Specialist",
    trigger := "any_syntax_error",
    tasks := [
      "Detect and fix syntax errors (missing >, ;, unterminated regex)",
      "Ensure JSX/TSX validity"],
    output := "syntax_patch",
    chemistry := "Steph Curry's shooting — precision from deep" },
  { name := "logic_validation",
    model := "jmorgan/grok:latest",
    role := "Deep Analyst",
    trigger := "any_type_error",
    tasks := [
      "Detect logic conflicts across tsconfig, next.config.js, dockerfiles",
      "Explain error causes in human-friendly terms",
      "Validate and update type definitions"],
    output := "validated_fix",
    chemistry := "LeBron — sees the whole court, validates plays" },
  { name := "fast_reaction",
    model := "mistral:latest",
    role := "First Responder",
    trigger := "any_build_error",
    tasks := [
      "Scan logs instantly",
      "Apply quick fixes like missing imports and typos",
      "Suggest yarn install if lockfile integrity fails"],
    output := "quick_fix_patch",
    chemistry := "Curry — fast handles, instant patch" },
  { name := "dependency_management",
    model := "gemma:7b",
    role := "Dependency Coordinator",
    trigger := "after_quick_fix_patch",
    tasks := [
      "Validate dependency versions in package.json and lock files",
      "Suggest yarn/pnpm add/remove for missing or conflicting deps"],
    output := "dependency_patch",
    chemistry := "Draymond — organizes the team, sets the screen" },
  { name := "strategic_reasoning",
    model := "mixtral:8x22b",
    role := "Architect",
    trigger := "after_validated_fix",
    tasks := [
      "Analyze project-wide implications of fixes",
      "Suggest architectural or config-level improvements",
      "Future-proof corrections for CI/CD and workspace"],
    output := "strategic_fix_plan",
    chemistry := "Durant — builds with long-range vision" },
  { name := "final_review",
    model := "llama3.1:latest",
    role := "Team Captain",
    trigger := "after_strategic_fix_plan",
    tasks := [
      "Review all fixes for consistency",
      "Ensure build success",
      "Make the final call"],
    output := "final_patch",
    chemistry := "Jordan — closes with dominance" },
  { name := "fallback",
    model := "qwen:7b",
    role := "Backup",
    trigger := "after_final_review_fail",
    tasks := [
      "Provide alternative fixes if primary pipeline fails",
      "Fresh perspective on the problem"],
    output := "fallback_fix",
    chemistry := "Iguodala — steps up when it matters most" }]

/-- Registry indexing `PIPELINE_STAGES[stageIdx]` (always used with an
index below the registry length). -/
def stageAt (n : Nat) : PipelineStage :=
  PIPELINE_STAGES.getD n ⟨"", "", "", "", [], "", ""⟩

/-- The error categories (union type `ErrorCategory`); the TypeScript
string literals "syntax", "type", "build", "dependency", "complex",
"unknown" become the constructors below. -/
inductive ErrorCategory where
  | Syntax : ErrorCategory
  | TypeErr : ErrorCategory
  | Build : ErrorCategory
  | Dependency : ErrorCategory
  | Complex : ErrorCategory
  | Unknown : ErrorCategory
deriving DecidableEq

/-- The classifier `classifyError`. -/
def classifyError (error : String) : ErrorCategory :=
  let lower := lowerStr error
  if strIncludes lower "unexpected token" || strIncludes lower "unterminated" ||
      strIncludes lower "missing >" || strIncludes lower "jsx" ||
      strIncludes lower "parsing error" then
    ErrorCategory.Syntax
  else if strIncludes lower "type error" || strIncludes lower "does not exist on type" ||
      strIncludes lower "is not assignable" || strIncludes lower "ts(" ||
      strIncludes lower "cannot find name" then
    ErrorCategory.TypeErr
  else if strIncludes lower "module not found" || strIncludes lower "cannot find module" ||
      strIncludes lower "yarn add" || strIncludes lower "pnpm add" ||
      strIncludes lower "peer dep" || strIncludes lower "version mismatch" then
    ErrorCategory.Dependency
  else if strIncludes lower "build" || strIncludes lower "compile" ||
      strIncludes lower "webpack" || strIncludes lower "next build" ||
      strIncludes lower "tsc" then
    ErrorCategory.Build
  else if strIncludes lower "architecture" || strIncludes lower "refactor" ||
      strIncludes lower "circular" || strIncludes lower "design" then
    ErrorCategory.Complex
  else
    ErrorCategory.Unknown

/-- The start-stage selector `getStartStage`. -/
def getStartStage : ErrorCategory → Nat
  | ErrorCategory.Syntax => 0
  | ErrorCategory.TypeErr => 1
  | ErrorCategory.Build => 2
  | ErrorCategory.Dependency => 3
  | ErrorCategory.Complex => 4
  | ErrorCategory.Unknown => 2

/-- Result of one executed stage (interface `StageResult`). -/
structure StageResult where
  stage : String
  model : String
  role : String
  chemistry : String
  response : JSValue
  durationMs : Int

instance : Inhabited StageResult := ⟨⟨"", "", "", "", JSValue.vnull, 0⟩⟩

/-- Aggregate result of one pipeline invocation
(interface `DiagnoseResult`). -/
structure DiagnoseResult where
  problem : String
  category : ErrorCategory
  stagesRun : List StageResult
  totalDurationMs : Int

/-- The external model-invocation capability
`client.ollamaGenerate(model, prompt)`; `Except.error e` models a call
that throws, `e` being the string form of the thrown value. -/
abbrev GenFun := String → String → Except String JSValue

/-- First task of a stage, `stage.tasks[0]` (JavaScript yields
`undefined` when the list is empty, which interpolates as the string
"undefined"). -/
def firstTask (tasks : List String) : String := tasks.headD "undefined"

/-- The enumerated task list
`stage.tasks.map((t, i) => backtick-template "  (i+1). t").join("\n")`. -/
def renderTaskList (tasks : List String) : String :=
  String.intercalate "\n"
    (tasks.enum.map (fun p => "  " ++ toString (p.fst + 1) ++ ". " ++ p.snd))

/-- One summary line of a prior stage inside the prompt's
"PREVIOUS ANALYSIS" block, with the response text truncated to 500
characters (`text.slice(0, 500)`). -/
def priorLine (prev : StageResult) : String :=
  "- " ++ prev.role ++ " (" ++ prev.model ++ "): " ++
    (extractResponseText prev.response).take 500 ++ "\n"

/-- The block appended to the prompt when `previousResults` is
non-empty. -/
def priorBlock (previousResults : List StageResult) : String :=
  "PREVIOUS ANALYSIS FROM THE TEAM:\n" ++
    concatAll (previousResults.map priorLine) ++
    "\nBuild on their analysis. Don't repeat what they already found.\n"

/-- The header of every stage prompt: role, primary task, the
accumulated context, and the enumerated task list. -/
def promptHead (stage : PipelineStage) (context : String) : String :=
  "You are the " ++ stage.role ++ " in the Phil Jackson Triangle Pipeline.\nYour job: " ++
    firstTask stage.tasks ++ "\n\nPROBLEM:\n" ++ context ++ "\n\nYOUR TASKS:\n" ++
    renderTaskList stage.tasks ++ "\n\n"

/-- The fixed closing instruction of every stage prompt. -/
def promptEnding : String :=
  "\nBe concise and actionable. Give specific file paths, line numbers, and code fixes where possible. No fluff."

/-- The prompt builder `buildStagePrompt`. -/
def buildStagePrompt (stage : PipelineStage) (context : String)
    (previousResults : List StageResult) : String :=
  (if previousResults.length > 0 then
    promptHead stage context ++ priorBlock previousResults
  else
    promptHead stage context) ++ promptEnding

/-- The stage response actually recorded: the oracle's value on
success, and the structured error marker
`\x7b error: "Model (model) unavailable: (err)" \x7d` when the
invocation throws. -/
def responseOf (model : String) (r : Except String JSValue) : JSValue :=
  match r with
  | Except.ok v => v
  | Except.error e =>
      JSValue.vobj [("error", JSValue.vstr ("Model " ++ model ++ " unavailable: " ++ e))]

/-- The rendered block appended to the rolling context after a stage. -/
def blockOf (r : StageResult) : String :=
  "\n\n--- " ++ r.role ++ " (" ++ r.model ++ ") ---\n" ++ extractResponseText r.response

/-- The executor's stage loop
(`for (let i = 0; i < maxStages && i < PIPELINE_STAGES.length; i++)`),
with the iteration count precomputed as `fuel`. Besides the stage
results appended during the call it returns the trace of the context
strings passed to `buildStagePrompt`, the final context, and the next
clock index. `acc` is the list of results recorded before this
iteration (`stagesRun` so far), used to build the prompt. -/
def runStages (gen : GenFun) (clock : Nat → Int) (startIdx : Nat) :
    Nat → Nat → String → List StageResult → Nat →
    List StageResult × List String × String × Nat
  | _i, 0, context, _acc, tick => ([], [], context, tick)
  | i, fuel + 1, context, acc, tick =>
      let stageIdx := (startIdx + i) % PIPELINE_STAGES.length
      let stage := stageAt stageIdx
      let prompt := buildStagePrompt stage context acc
      let stageStart := clock tick
      let response := responseOf stage.model (gen stage.model prompt)
      let durationMs := clock (tick + 1) - stageStart
      let result : StageResult :=
        { stage := stage.name, model := stage.model, role := stage.role,
          chemistry := stage.chemistry, response := response, durationMs := durationMs }
      let responseText := extractResponseText response
      let newContext :=
        context ++ "\n\n--- " ++ stage.role ++ " (" ++ stage.model ++ ") ---\n" ++ responseText
      let rest := runStages gen clock startIdx (i + 1) fuel newContext (acc ++ [result]) (tick + 2)
      (result :: rest.1, context :: rest.2.1, rest.2.2.1, rest.2.2.2)

/-- The loop of `runPipeline` applied to a problem: classification,
start-index selection, and the capped iteration count
`min maxStages (registry length)` (`maxStages` is a JavaScript number,
modelled as an integer; a non-positive budget runs zero iterations). -/
def pipelineExec (gen : GenFun) (clock : Nat → Int) (problem : String)
    (maxStages : Int) : List StageResult × List String × String × Nat :=
  runStages gen clock (getStartStage (classifyError problem)) 0
    (Int.toNat (min maxStages (PIPELINE_STAGES.length : Int))) problem [] 1

/-- The pipeline executor `runPipeline(client, problem, maxStages)`.
`clock 0` is the `totalStart` read; the loop reads `clock (2k+1)` and
`clock (2k+2)` for stage `k`; the final read computes
`totalDurationMs`. -/
def runPipeline (gen : GenFun) (clock : Nat → Int) (problem : String)
    (maxStages : Int) : DiagnoseResult :=
  let totalStart := clock 0
  let e := pipelineExec gen clock problem maxStages
  { problem := problem,
    category := classifyError problem,
    stagesRun := e.1,
    totalDurationMs := clock e.2.2.2 - totalStart }

/-- The trace of context strings passed to `buildStagePrompt`, one per
executed stage, of the same `runPipeline` run. -/
def runContexts (gen : GenFun) (clock : Nat → Int) (problem : String)
    (maxStages : Int) : List String :=
  (pipelineExec gen clock problem maxStages).2.1

/-- The wrapper `quickDiagnose(client, problem)`. -/
def quickDiagnose (gen : GenFun) (clock : Nat → Int) (problem : String) : DiagnoseResult :=
  runPipeline gen clock problem 1

/-- The wrapper `deepDiagnose(client, problem)`. -/
def deepDiagnose (gen : GenFun) (clock : Nat → Int) (problem : String) : DiagnoseResult :=
  runPipeline gen clock problem 7

/-- The tool layer's default depth branch
(`result = await runPipeline(wr, problem, 3)` for depth "standard"). -/
def standardDiagnose (gen : GenFun) (clock : Nat → Int) (problem : String) : DiagnoseResult :=
  runPipeline gen clock problem 3

/-- Model reference of the stage executed at position `k` of a run on
problem `p`. -/
def stageModelAt (p : String) (k : Nat) : String :=
  (stageAt ((getStartStage (classifyError p) + k) % PIPELINE_STAGES.length)).model

/-- The non-timing projection of a stage result (every field except
`durationMs`). -/
def stripT (r : StageResult) : String × String × String × String × JSValue :=
  (r.stage, r.model, r.role, r.chemistry, r.response)

/-- The classifier's keyword table in the spec's priority order,
category by category. -/
def keywordTable : List (ErrorCategory × List String) := [
  (ErrorCategory.Syntax,
    ["unexpected token", "unterminated", "missing >", "jsx", "parsing error"]),
  (ErrorCategory.TypeErr,
    ["type error", "does not exist on type", "is not assignable", "ts(", "cannot find name"]),
  (ErrorCategory.Dependency,
    ["module not found", "cannot find module", "yarn add", "pnpm add", "peer dep",
      "version mismatch"]),
  (ErrorCategory.Build,
    ["build", "compile", "webpack", "next build", "tsc"]),
  (ErrorCategory.Complex,
    ["architecture", "refactor", "circular", "design"])]

/-- First category of the table one of whose keywords occurs in the
lowered text. -/
def firstMatching (lower : String) : List (ErrorCategory × List String) → ErrorCategory
  | [] => ErrorCategory.Unknown
  | (cat, kws) :: rest =>
      if kws.any (fun kw => strIncludes lower kw) then cat else firstMatching lower rest

/-- The classifier as the spec describes it: case-insensitive substring
matching against the per-category keyword lists in the fixed priority
order, first matching category wins, `unknown` when nothing matches. -/
def classifySpec (text : String) : ErrorCategory :=
  firstMatching (lowerStr text) keywordTable

/-- The stage descriptor picked at loop position `i` when the start
index is `s`. -/
def stepStage (s i : Nat) : PipelineStage :=
  stageAt ((s + i) % PIPELINE_STAGES.length)

/-- The response recorded at loop position `i`: the oracle's answer on
the prompt built from the current context and prior results, or the
error marker. -/
def stepResponse (gen : GenFun) (s i : Nat) (ctx : String)
    (acc : List StageResult) : JSValue :=
  responseOf (stepStage s i).model
    (gen (stepStage s i).model (buildStagePrompt (stepStage s i) ctx acc))

/-- The stage result recorded at loop position `i`. -/
def stepResult (gen : GenFun) (clock : Nat → Int) (s i : Nat) (ctx : String)
    (acc : List StageResult) (tick : Nat) : StageResult :=
  { stage := (stepStage s i).name, model := (stepStage s i).model,
    role := (stepStage s i).role, chemistry := (stepStage s i).chemistry,
    response := stepResponse gen s i ctx acc,
    durationMs := clock (tick + 1) - clock tick }

/-- The rolling context after loop position `i`. -/
def stepContext (gen : GenFun) (s i : Nat) (ctx : String)
    (acc : List StageResult) : String :=
  ctx ++ "\n\n--- " ++ (stepStage s i).role ++ " (" ++ (stepStage s i).model ++ ") ---\n" ++
    extractResponseText (stepResponse gen s i ctx acc)

/-- Substring occurrence as explicit decomposition. -/
def hasSub (s t : String) : Prop := ∃ x y, s = x ++ t ++ y

/-- A model-invocation oracle that always succeeds, for concrete runs. -/
def genW : GenFun := fun _ _ => Except.ok (JSValue.vstr "ok")

/-- A model-invocation oracle that always throws, for concrete runs. -/
def genE : GenFun := fun _ _ => Except.error "connection refused"

/-- A constant wall clock, for concrete runs. -/
def clockW : Nat → Int := fun _ => 0

/-- A sample stage result, for concrete prompts. -/
def sampleResult : StageResult :=
  { stage := "syntax_correction", model := "falcon:7b", role := "Syntax Specialist",
    chemistry := "Steph Curry's shooting — precision from deep",
    response := JSValue.vobj [("response", JSValue.vstr "fixed the token")],
    durationMs := 5 }

theorem runStages_zero (gen : GenFun) (clock : Nat → Int) (s i : Nat)
    (ctx : String) (acc : List StageResult) (tick : Nat) :
    runStages gen clock s i 0 ctx acc tick = ([], [], ctx, tick) := rfl

theorem runStages_succ (gen : GenFun) (clock : Nat → Int) (s i fuel : Nat)
    (ctx : String) (acc : List StageResult) (tick : Nat) :
    runStages gen clock s i (fuel + 1) ctx acc tick =
      ((stepResult gen clock s i ctx acc tick) ::
          (runStages gen clock s (i + 1) fuel (stepContext gen s i ctx acc)
            (acc ++ [stepResult gen clock s i ctx acc tick]) (tick + 2)).1,
        ctx :: (runStages gen clock s (i + 1) fuel (stepContext gen s i ctx acc)
            (acc ++ [stepResult gen clock s i ctx acc tick]) (tick + 2)).2.1,
        (runStages gen clock s (i + 1) fuel (stepContext gen s i ctx acc)
            (acc ++ [stepResult gen clock s i ctx acc tick]) (tick + 2)).2.2.1,
        (runStages gen clock s (i + 1) fuel (stepContext gen s i ctx acc)
            (acc ++ [stepResult gen clock s i ctx acc tick]) (tick + 2)).2.2.2) := rfl

theorem runStages_results_length (gen : GenFun) (clock : Nat → Int) (s : Nat)
    (fuel : Nat) : ∀ (i : Nat) (ctx : String) (acc : List StageResult) (tick : Nat),
    (runStages gen clock s i fuel ctx acc tick).1.length = fuel := by
  induction fuel with
  | zero => intro i ctx acc tick; rfl
  | succ fuel ih =>
      intro i ctx acc tick
      rw [runStages_succ]
      simp [ih]

theorem runStages_trace_length (gen : GenFun) (clock : Nat → Int) (s : Nat)
    (fuel : Nat) : ∀ (i : Nat) (ctx : String) (acc : List StageResult) (tick : Nat),
    (runStages gen clock s i fuel ctx acc tick).2.1.length = fuel := by
  induction fuel with
  | zero => intro i ctx acc tick; rfl
  | succ fuel ih =>
      intro i ctx acc tick
      rw [runStages_succ]
      simp [ih]

theorem stepContext_eq_blockOf (gen : GenFun) (clock : Nat → Int) (s i : Nat)
    (ctx : String) (acc : List StageResult) (tick : Nat) :
    stepContext gen s i ctx acc = ctx ++ blockOf (stepResult gen clock s i ctx acc tick) := by
  simp [stepContext, blockOf, stepResult, String.append_assoc]

theorem runStages_trace_getD (gen : GenFun) (clock : Nat → Int) (s : Nat) (fuel : Nat) :
    ∀ (i : Nat) (ctx : String) (acc : List StageResult) (tick : Nat) (k : Nat), k < fuel →
    (runStages gen clock s i fuel ctx acc tick).2.1.getD k "" =
      ctx ++ concatAll (((runStages gen clock s i fuel ctx acc tick).1.take k).map blockOf) := by
  induction fuel with
  | zero => intro i ctx acc tick k hk; exact absurd hk (Nat.not_lt_zero k)
  | succ fuel ih =>
      intro i ctx acc tick k hk
      rw [runStages_succ]
      cases k with
      | zero => simp [concatAll]
      | succ k =>
          have hk' : k < fuel := Nat.lt_of_succ_lt_succ hk
          simp only [List.getD_cons_succ, List.take_succ_cons, List.map_cons]
          rw [ih (i + 1) (stepContext gen s i ctx acc)
            (acc ++ [stepResult gen clock s i ctx acc tick]) (tick + 2) k hk']
          rw [stepContext_eq_blockOf gen clock s i ctx acc tick]
          simp [concatAll, String.append_assoc]

theorem runStages_results_getD (gen : GenFun) (clock : Nat → Int) (s : Nat) (fuel : Nat) :
    ∀ (i : Nat) (ctx : String) (acc : List StageResult) (tick : Nat) (k : Nat), k < fuel →
    (runStages gen clock s i fuel ctx acc tick).1.getD k default =
      stepResult gen clock s (i + k)
        ((runStages gen clock s i fuel ctx acc tick).2.1.getD k "")
        (acc ++ (runStages gen clock s i fuel ctx acc tick).1.take k)
        (tick + 2 * k) := by
  induction fuel with
  | zero => intro i ctx acc tick k hk; exact absurd hk (Nat.not_lt_zero k)
  | succ fuel ih =>
      intro i ctx acc tick k hk
      rw [runStages_succ]
      cases k with
      | zero => simp
      | succ k =>
          have hk' : k < fuel := Nat.lt_of_succ_lt_succ hk
          simp only [List.getD_cons_succ, List.take_succ_cons]
          rw [ih (i + 1) (stepContext gen s i ctx acc)
            (acc ++ [stepResult gen clock s i ctx acc tick]) (tick + 2) k hk']
          have h1 : i + 1 + k = i + (k + 1) := by omega
          have h2 : tick + 2 + 2 * k = tick + 2 * (k + 1) := by omega
          rw [h1, h2]
          simp [List.append_assoc]

theorem runStages_map_stage (gen : GenFun) (clock : Nat → Int) (s : Nat) (fuel : Nat) :
    ∀ (i : Nat) (ctx : String) (acc : List StageResult) (tick : Nat),
    (runStages gen clock s i fuel ctx acc tick).1.map (fun r => r.stage) =
      (List.range fuel).map
        (fun k => (stageAt ((s + (i + k)) % PIPELINE_STAGES.length)).name) := by
  induction fuel with
  | zero => intro i ctx acc tick; rfl
  | succ fuel ih =>
      intro i ctx acc tick
      rw [runStages_succ, List.range_succ_eq_map]
      simp only [List.map_cons, List.map_map]
      rw [ih]
      have h : ∀ k : Nat, s + (i + 1 + k) = s + (i + (k + 1)) := by intro k; omega
      simp [stepResult, stepStage, Function.comp, h]

/-- C2: the stage registry holds exactly 7 stages, and for every
problem string and stage budget n ≥ 1 the run returns exactly
min(n, 7) stage results: 1 for n = 1, 7 for n = 7, and 7 for any
n > 7. -/
theorem pipeline_run_length (gen : GenFun) (clock : Nat → Int) (p : String) (n : Int)
    (hn : 1 ≤ n) :
    PIPELINE_STAGES.length = 7 ∧
      ((runPipeline gen clock p n).stagesRun.length : Int) = min n 7 := by
  refine ⟨rfl, ?_⟩
  have h := runStages_results_length gen clock (getStartStage (classifyError p))
    (Int.toNat (min n (PIPELINE_STAGES.length : Int))) 0 p [] 1
  simp only [runPipeline, pipelineExec]
  rw [h]
  have hlen : (PIPELINE_STAGES.length : Int) = 7 := rfl
  rw [hlen]
  omega

theorem pipeline_run_length_witness :
    1 ≤ (9 : Int) ∧
      (PIPELINE_STAGES.length = 7 ∧
        ((runPipeline genW clockW "x" 9).stagesRun.length : Int) = min 9 7) :=
  ⟨by decide, pipeline_run_length genW clockW "x" 9 (by decide)⟩

/-- C4: the executed stages are the registry entries at indices
(startIndex + i) mod 7 in order; a syntax-classified problem with
budget 3 runs stage indices [0,1,2], and a dependency-classified
problem with budget 7 runs [3,4,5,6,0,1,2]. -/
theorem pipeline_stage_order (gen : GenFun) (clock : Nat → Int) (p : String) (n : Int) :
    ((runPipeline gen clock p n).stagesRun.map (fun r => r.stage) =
      (List.range (Int.toNat (min n 7))).map
        (fun k => (stageAt ((getStartStage (classifyError p) + k) %
          PIPELINE_STAGES.length)).name)) ∧
    (classifyError p = ErrorCategory.Syntax →
      (runPipeline gen clock p 3).stagesRun.map (fun r => r.stage) =
        ["syntax_correction", "logic_validation", "fast_reaction"]) ∧
    (classifyError p = ErrorCategory.Dependency →
      (runPipeline gen clock p 7).stagesRun.map (fun r => r.stage) =
        ["dependency_management", "strategic_reasoning", "final_review", "fallback",
          "syntax_correction", "logic_validation", "fast_reaction"]) := by
  have hgen : ∀ m : Int, (runPipeline gen clock p m).stagesRun.map (fun r => r.stage) =
      (List.range (Int.toNat (min m 7))).map
        (fun k => (stageAt ((getStartStage (classifyError p) + k) %
          PIPELINE_STAGES.length)).name) := by
    intro m
    have h := runStages_map_stage gen clock (getStartStage (classifyError p))
      (Int.toNat (min m (PIPELINE_STAGES.length : Int))) 0 p [] 1
    have hlen : (PIPELINE_STAGES.length : Int) = 7 := rfl
    simp only [runPipeline, pipelineExec]
    rw [h, hlen]
    simp
  refine ⟨hgen n, ?_, ?_⟩
  · intro h
    rw [hgen 3, h]
    decide
  · intro h
    rw [hgen 7, h]
    decide

theorem pipeline_stage_order_witness :
    classifyError "jsx" = ErrorCategory.Syntax ∧
    classifyError "module not found" = ErrorCategory.Dependency ∧
    (runPipeline genW clockW "jsx" 3).stagesRun.map (fun r => r.stage) =
      ["syntax_correction", "logic_validation", "fast_reaction"] ∧
    (runPipeline genW clockW "module not found" 7).stagesRun.map (fun r => r.stage) =
      ["dependency_management", "strategic_reasoning", "final_review", "fallback",
        "syntax_correction", "logic_validation", "fast_reaction"] :=
  ⟨by decide, by decide,
    (pipeline_stage_order genW clockW "jsx" 3).2.1 (by decide),
    (pipeline_stage_order genW clockW "module not found" 7).2.2 (by decide)⟩

/-- C5: the start-stage selector is total over the six categories with
values in [0, 7), given by the fixed table syntax→0, type→1, build→2,
dependency→3, complex→4, unknown→2; the empty string classifies as
unknown with start index 2. -/
theorem getStartStage_spec :
    (∀ c, getStartStage c < 7) ∧
    getStartStage ErrorCategory.Syntax = 0 ∧
    getStartStage ErrorCategory.TypeErr = 1 ∧
    getStartStage ErrorCategory.Build = 2 ∧
    getStartStage ErrorCategory.Dependency = 3 ∧
    getStartStage ErrorCategory.Complex = 4 ∧
    getStartStage ErrorCategory.Unknown = 2 ∧
    classifyError "" = ErrorCategory.Unknown ∧
    getStartStage (classifyError "") = 2 :=
  ⟨fun c => by cases c <;> decide, by decide, by decide, by decide, by decide,
    by decide, by decide, by decide, by decide⟩

/-- C6: the context passed into stage k's prompt is the original
problem text followed by one rendered block per prior stage, in
execution order, each block carrying the prior stage's role, model and
extracted response text. -/
theorem pipeline_context_accumulation (gen : GenFun) (clock : Nat → Int) (p : String)
    (n : Int) (k : Nat) (hk : k < (runContexts gen clock p n).length) :
    (runContexts gen clock p n).getD k "" =
      p ++ concatAll (((runPipeline gen clock p n).stagesRun.take k).map blockOf) := by
  have hlen := runStages_trace_length gen clock (getStartStage (classifyError p))
    (Int.toNat (min n (PIPELINE_STAGES.length : Int))) 0 p [] 1
  simp only [runContexts, pipelineExec] at hk ⊢
  rw [hlen] at hk
  simp only [runPipeline, pipelineExec]
  exact runStages_trace_getD gen clock (getStartStage (classifyError p))
    (Int.toNat (min n (PIPELINE_STAGES.length : Int))) 0 p [] 1 k hk

theorem pipeline_context_accumulation_witness :
    1 < (runContexts genE clockW "x" 2).length ∧
    (runContexts genE clockW "x" 2).getD 1 "" =
      "x" ++ concatAll (((runPipeline genE clockW "x" 2).stagesRun.take 1).map blockOf) :=
  ⟨by decide, pipeline_context_accumulation genE clockW "x" 2 1 (by decide)⟩

/-- C9: the convenience entry points are exact wrappers over the
pipeline executor: quickDiagnose = run with budget 1, deepDiagnose =
run with budget 7, and the tool layer's "standard" depth = run with
budget 3. -/
theorem diagnose_wrappers_eq :
    ∀ (gen : GenFun) (clock : Nat → Int) (p : String),
      quickDiagnose gen clock p = runPipeline gen clock p 1 ∧
      deepDiagnose gen clock p = runPipeline gen clock p 7 ∧
      standardDiagnose gen clock p = runPipeline gen clock p 3 :=
  fun _ _ _ => ⟨rfl, rfl, rfl⟩

/-- C10: for a non-positive stage budget the executor still returns
normally: no model invocation happens (the result does not depend on
the oracle), the stage list is empty, the problem is echoed and the
category is the classification of the input. -/
theorem runPipeline_nonpositive_budget (gen gen2 : GenFun) (clock : Nat → Int)
    (p : String) (n : Int) (hn : n ≤ 0) :
    (runPipeline gen clock p n).stagesRun = [] ∧
    (runPipeline gen clock p n).problem = p ∧
    (runPipeline gen clock p n).category = classifyError p ∧
    runPipeline gen clock p n = runPipeline gen2 clock p n := by
  have hlen : (PIPELINE_STAGES.length : Int) = 7 := rfl
  have h0 : Int.toNat (min n (PIPELINE_STAGES.length : Int)) = 0 := by
    rw [hlen]; omega
  refine ⟨?_, ?_, ?_, ?_⟩ <;> simp [runPipeline, pipelineExec, h0, runStages]

theorem runPipeline_nonpositive_budget_witness :
    (-2 : Int) ≤ 0 ∧
    ((runPipeline genW clockW "x" (-2)).stagesRun = [] ∧
      (runPipeline genW clockW "x" (-2)).problem = "x" ∧
      (runPipeline genW clockW "x" (-2)).category = classifyError "x" ∧
      runPipeline genW clockW "x" (-2) = runPipeline genE clockW "x" (-2)) :=
  ⟨by decide, runPipeline_nonpositive_budget genW genE clockW "x" (-2) (by decide)⟩

/-- C1: if the model invocation for stage position k throws, the run
does not abort: results[k].response is the structured error marker
whose message contains the stage's model reference and the failure
description, and every stage within the budget is still executed (the
result list has its full min(n, 7) length); the executor always
returns a DiagnoseResult. -/
theorem pipeline_failure_isolation (gen : GenFun) (clock : Nat → Int) (p : String)
    (n : Int) (k : Nat) (e : String)
    (hk : (k : Int) < min n 7)
    (hfail : ∀ prompt, gen (stageModelAt p k) prompt = Except.error e) :
    (runPipeline gen clock p n).stagesRun.length = Int.toNat (min n 7) ∧
    ((runPipeline gen clock p n).stagesRun.getD k default).response =
      JSValue.vobj [("error",
        JSValue.vstr ("Model " ++ stageModelAt p k ++ " unavailable: " ++ e))] ∧
    hasSub ("Model " ++ stageModelAt p k ++ " unavailable: " ++ e) (stageModelAt p k) ∧
    hasSub ("Model " ++ stageModelAt p k ++ " unavailable: " ++ e) e := by
  have hlen : (PIPELINE_STAGES.length : Int) = 7 := rfl
  have hkf : k < Int.toNat (min n (PIPELINE_STAGES.length : Int)) := by
    rw [hlen]; omega
  refine ⟨?_, ?_, ?_, ?_⟩
  · have h := runStages_results_length gen clock (getStartStage (classifyError p))
      (Int.toNat (min n (PIPELINE_STAGES.length : Int))) 0 p [] 1
    simp only [runPipeline, pipelineExec]
    rw [h, hlen]
  · have h := runStages_results_getD gen clock (getStartStage (classifyError p))
      (Int.toNat (min n (PIPELINE_STAGES.length : Int))) 0 p [] 1 k hkf
    simp only [runPipeline, pipelineExec]
    rw [h]
    simp only [stepResult, stepResponse, stepStage, Nat.zero_add]
    have hm : (stageAt ((getStartStage (classifyError p) + k) %
        PIPELINE_STAGES.length)).model = stageModelAt p k := rfl
    rw [hm, hfail]
    simp [responseOf]
  · exact ⟨"Model ", " unavailable: " ++ e, by simp [String.append_assoc]⟩
  · exact ⟨"Model " ++ stageModelAt p k ++ " unavailable: ", "", by simp⟩

theorem pipeline_failure_isolation_witness :
    ((0 : Nat) : Int) < min 2 7 ∧
    ((runPipeline genE clockW "x" 2).stagesRun.length = Int.toNat (min 2 7) ∧
      ((runPipeline genE clockW "x" 2).stagesRun.getD 0 default).response =
        JSValue.vobj [("error",
          JSValue.vstr ("Model " ++ stageModelAt "x" 0 ++ " unavailable: " ++
            "connection refused"))] ∧
      hasSub ("Model " ++ stageModelAt "x" 0 ++ " unavailable: " ++ "connection refused")
        (stageModelAt "x" 0) ∧
      hasSub ("Model " ++ stageModelAt "x" 0 ++ " unavailable: " ++ "connection refused")
        "connection refused") :=
  ⟨by decide,
    pipeline_failure_isolation genE clockW "x" 2 0 "connection refused" (by decide)
      (fun _ => rfl)⟩

/-- C3: the classifier is a pure total function equal to
case-insensitive substring matching against the fixed per-category
keyword lists in the fixed priority order syntax, type, dependency,
build, complex, first match winning, and yields unknown on every
non-matching input, the empty string included. -/
theorem classifyError_matches_spec :
    (∀ s, classifyError s = classifySpec s) ∧
    classifyError "" = ErrorCategory.Unknown := by
  refine ⟨?_, by decide⟩
  intro s
  simp only [classifySpec, keywordTable, firstMatching, classifyError,
    List.any_cons, List.any_nil, Bool.or_false, Bool.or_assoc]

theorem priorLine_stripT_congr (r1 r2 : StageResult) (h : stripT r1 = stripT r2) :
    priorLine r1 = priorLine r2 := by
  simp only [stripT, Prod.mk.injEq] at h
  obtain ⟨h1, h2, h3, h4, h5⟩ := h
  simp [priorLine, h2, h3, h5]

theorem map_priorLine_congr : ∀ (l1 l2 : List StageResult),
    l1.map stripT = l2.map stripT → l1.map priorLine = l2.map priorLine := by
  intro l1
  induction l1 with
  | nil =>
      intro l2 h
      cases l2 with
      | nil => rfl
      | cons b l2 => simp at h
  | cons a l ih =>
      intro l2 h
      cases l2 with
      | nil => simp at h
      | cons b l2 =>
          simp only [List.map_cons, List.cons.injEq] at h ⊢
          exact ⟨priorLine_stripT_congr a b h.1, ih l2 h.2⟩

theorem buildStagePrompt_congr (st : PipelineStage) (ctx : String)
    (l1 l2 : List StageResult) (h : l1.map stripT = l2.map stripT) :
    buildStagePrompt st ctx l1 = buildStagePrompt st ctx l2 := by
  have hlen : l1.length = l2.length := by
    have := congrArg List.length h
    simpa using this
  simp only [buildStagePrompt, priorBlock, hlen, map_priorLine_congr l1 l2 h]

theorem runStages_clock_congr (gen : GenFun) (clock1 clock2 : Nat → Int) (s : Nat)
    (fuel : Nat) : ∀ (i : Nat) (ctx : String) (acc1 acc2 : List StageResult)
    (tick1 tick2 : Nat), acc1.map stripT = acc2.map stripT →
    (runStages gen clock1 s i fuel ctx acc1 tick1).1.map stripT =
      (runStages gen clock2 s i fuel ctx acc2 tick2).1.map stripT ∧
    (runStages gen clock1 s i fuel ctx acc1 tick1).2.1 =
      (runStages gen clock2 s i fuel ctx acc2 tick2).2.1 ∧
    (runStages gen clock1 s i fuel ctx acc1 tick1).2.2.1 =
      (runStages gen clock2 s i fuel ctx acc2 tick2).2.2.1 := by
  induction fuel with
  | zero => intro i ctx acc1 acc2 t1 t2 h; exact ⟨rfl, rfl, rfl⟩
  | succ fuel ih =>
      intro i ctx acc1 acc2 t1 t2 h
      have hprompt : buildStagePrompt (stepStage s i) ctx acc1 =
          buildStagePrompt (stepStage s i) ctx acc2 :=
        buildStagePrompt_congr _ _ _ _ h
      have hresp : stepResponse gen s i ctx acc1 = stepResponse gen s i ctx acc2 := by
        simp [stepResponse, hprompt]
      have hstrip : stripT (stepResult gen clock1 s i ctx acc1 t1) =
          stripT (stepResult gen clock2 s i ctx acc2 t2) := by
        simp [stripT, stepResult, hresp]
      have hctx : stepContext gen s i ctx acc1 = stepContext gen s i ctx acc2 := by
        simp [stepContext, hresp]
      have hacc : (acc1 ++ [stepResult gen clock1 s i ctx acc1 t1]).map stripT =
          (acc2 ++ [stepResult gen clock2 s i ctx acc2 t2]).map stripT := by
        simp [h, hstrip]
      have hrest := ih (i + 1) (stepContext gen s i ctx acc1)
        (acc1 ++ [stepResult gen clock1 s i ctx acc1 t1])
        (acc2 ++ [stepResult gen clock2 s i ctx acc2 t2]) (t1 + 2) (t2 + 2) hacc
      rw [runStages_succ, runStages_succ, ← hctx]
      refine ⟨?_, ?_, hrest.2.2⟩
      · simp only [List.map_cons, hstrip, hrest.1]
      · rw [hrest.2.1]

/-- C8: the executor is deterministic up to timing: with the same
problem, budget, and deterministic model-invocation oracle, two runs
that differ only in their wall clocks agree on the problem, the
category, and every stage result field except the duration fields. -/
theorem runPipeline_deterministic (gen : GenFun) (clock1 clock2 : Nat → Int)
    (p : String) (n : Int) :
    (runPipeline gen clock1 p n).problem = (runPipeline gen clock2 p n).problem ∧
    (runPipeline gen clock1 p n).category = (runPipeline gen clock2 p n).category ∧
    (runPipeline gen clock1 p n).stagesRun.map stripT =
      (runPipeline gen clock2 p n).stagesRun.map stripT := by
  refine ⟨rfl, rfl, ?_⟩
  have h := runStages_clock_congr gen clock1 clock2 (getStartStage (classifyError p))
    (Int.toNat (min n (PIPELINE_STAGES.length : Int))) 0 p [] [] 1 1 rfl
  simpa [runPipeline, pipelineExec] using h.1

theorem hasSub_extend_right (s t u : String) (h : hasSub s t) : hasSub (s ++ u) t := by
  obtain ⟨x, y, rfl⟩ := h
  exact ⟨x, y ++ u, by simp [String.append_assoc]⟩

theorem hasSub_extend_left (s t u : String) (h : hasSub s t) : hasSub (u ++ s) t := by
  obtain ⟨x, y, rfl⟩ := h
  exact ⟨u ++ x, y, by simp [String.append_assoc]⟩

theorem hasSub_append_right (x t : String) : hasSub (x ++ t) t :=
  ⟨x, "", by simp⟩

/-- C7: the prompt builder is pure and its output contains the stage's
role label, its first task, the context verbatim, and the enumerated
task list; the prior-results summary block (with its instruction not
to duplicate prior findings) is appended exactly when priorResults is
non-empty; and the prompt always ends with the fixed closing
instruction. -/
theorem buildStagePrompt_spec (stage : PipelineStage) (context : String)
    (prev : List StageResult) :
    buildStagePrompt stage context prev =
      (if prev.length > 0 then promptHead stage context ++ priorBlock prev
        else promptHead stage context) ++ promptEnding ∧
    hasSub (buildStagePrompt stage context prev) stage.role ∧
    hasSub (buildStagePrompt stage context prev) (firstTask stage.tasks) ∧
    hasSub (buildStagePrompt stage context prev) context ∧
    hasSub (buildStagePrompt stage context prev) (renderTaskList stage.tasks) ∧
    (∃ x, buildStagePrompt stage context prev = x ++ promptEnding) ∧
    (0 < prev.length →
      ∃ x, buildStagePrompt stage context prev = x ++ (priorBlock prev ++ promptEnding)) := by
  have hrole : hasSub (promptHead stage context) stage.role := by
    unfold promptHead
    exact hasSub_extend_right _ _ _ (hasSub_extend_right _ _ _ (hasSub_extend_right _ _ _
      (hasSub_extend_right _ _ _ (hasSub_extend_right _ _ _ (hasSub_extend_right _ _ _
        (hasSub_extend_right _ _ _ (hasSub_append_right _ _)))))))
  have htask : hasSub (promptHead stage context) (firstTask stage.tasks) := by
    unfold promptHead
    exact hasSub_extend_right _ _ _ (hasSub_extend_right _ _ _ (hasSub_extend_right _ _ _
      (hasSub_extend_right _ _ _ (hasSub_extend_right _ _ _ (hasSub_append_right _ _)))))
  have hctx : hasSub (promptHead stage context) context := by
    unfold promptHead
    exact hasSub_extend_right _ _ _ (hasSub_extend_right _ _ _ (hasSub_extend_right _ _ _
      (hasSub_append_right _ _)))
  have htl : hasSub (promptHead stage context) (renderTaskList stage.tasks) := by
    unfold promptHead
    exact hasSub_extend_right _ _ _ (hasSub_append_right _ _)
  have hlift : ∀ t, hasSub (promptHead stage context) t →
      hasSub (buildStagePrompt stage context prev) t := by
    intro t ht
    unfold buildStagePrompt
    by_cases hc : prev.length > 0
    · simp only [hc, if_true]
      exact hasSub_extend_right _ _ _ (hasSub_extend_right _ _ _ ht)
    · simp only [hc, if_false]
      exact hasSub_extend_right _ _ _ ht
  refine ⟨rfl, hlift _ hrole, hlift _ htask, hlift _ hctx, hlift _ htl, ?_, ?_⟩
  · exact ⟨if prev.length > 0 then promptHead stage context ++ priorBlock prev
      else promptHead stage context, rfl⟩
  · intro hp
    refine ⟨promptHead stage context, ?_⟩
    simp [buildStagePrompt, hp, String.append_assoc]

theorem buildStagePrompt_spec_witness :
    0 < ([sampleResult] : List StageResult).length ∧
    (∃ x, buildStagePrompt (stageAt 1) "ctx" [sampleResult] =
      x ++ (priorBlock [sampleResult] ++ promptEnding)) :=
  ⟨by decide,
    (buildStagePrompt_spec (stageAt 1) "ctx" [sampleResult]).2.2.2.2.2.2 (by decide)⟩

end PhilJackson
